import Mathlib

/-!
Verification of the single-owner resource handle (the tutorial `unique_ptr`)
implemented in this repository.

The authoritative implementation is the deleter-carrying class in
src/unnamed/part_000 (lines 60-136), with the deleter-free variant in
src/_codes/implement-unique-ptr.cc and the draft text in
src/_drafts/implementing-unique-ptr.md agreeing on every member that both
define (except the boolean conversion of the draft, embedded separately
below).

Embedding choices:
- raw pointers `T*` become `Option Nat` (`none` = `nullptr`, `some a` = a
  non-null address a);
- a deleter value is identified by a `Nat` tag; invoking deleter d on
  resource a is recorded as the event `(d, a)`;
- the only place the source ever invokes a deleter is the destructor
  (part_000 lines 106-111), so the destructor is the only operation that
  emits events;
- member functions that mutate `*this` and an argument are embedded either
  as pure functions returning the updated copies, or, where aliasing of the
  two objects matters (`swap`, and move assignment which is `swap`), as
  functions on a store `Nat → unique_ptr` indexed by object identity.
-/

/-- Release event: deleter tag paired with the resource it was invoked on. -/
abbrev Event := Nat × Nat

/-- Tag of the default-constructed `default_deleter<T>`
(src/unnamed/part_000 lines 55-58). -/
def default_deleter_tag : Nat := 0

/-- Fields of `unique_ptr<T, Deleter>` (src/unnamed/part_000 lines 128-130):
`T* ptr_` and `Deleter deleter_`. -/
structure unique_ptr where
  ptr_ : Option Nat
  deleter_ : Nat
  deriving DecidableEq

/-- Embeds `constexpr unique_ptr() noexcept : ptr_(nullptr)` and the
`nullptr_t` overload (part_000 lines 64-65): empty handle, deleter
default-constructed. -/
def unique_ptr.mkEmpty : unique_ptr := ⟨none, default_deleter_tag⟩

/-- Embeds `explicit unique_ptr(T* p) noexcept : ptr_(p)`
(part_000 line 68). -/
def unique_ptr.ofPtr (p : Option Nat) : unique_ptr := ⟨p, default_deleter_tag⟩

/-- Embeds `unique_ptr(T* p, const Deleter& d) noexcept : ptr_(p), deleter_(d)`
(part_000 line 71). -/
def unique_ptr.ofPtrDel (p : Option Nat) (d : Nat) : unique_ptr := ⟨p, d⟩

/-- Embeds the move constructor (part_000 lines 83-86):
the new object takes `u.ptr_` and the moved deleter; then `u.ptr_ = nullptr`.
First component is the new object, second is the moved-from source.
A moved-from trivial deleter keeps its value, so the source retains its tag. -/
def unique_ptr.moveCtor (u : unique_ptr) : unique_ptr × unique_ptr :=
  (⟨u.ptr_, u.deleter_⟩, ⟨none, u.deleter_⟩)

/-- Embeds the destructor (part_000 lines 106-111):
`if (ptr_) deleter_(ptr_);` — returns the list of release events it emits. -/
def unique_ptr.dtor (u : unique_ptr) : List Event :=
  match u.ptr_ with
  | some p => [(u.deleter_, p)]
  | none => []

/-- Embeds `T* get() const noexcept` (part_000 line 114). -/
def unique_ptr.get (u : unique_ptr) : Option Nat := u.ptr_

/-- Embeds `T* release() noexcept` (part_000 lines 122-126):
returns the raw pointer and the emptied handle. -/
def unique_ptr.release (u : unique_ptr) : Option Nat × unique_ptr :=
  (u.ptr_, ⟨none, u.deleter_⟩)

/-- Embeds `explicit operator bool() const noexcept { return ptr_ == nullptr; }`
from the draft variant (src/_drafts/implementing-unique-ptr.md line 74).
That variant lacks the deleter field; the member body reads only `ptr_`. -/
def unique_ptr.opBool (u : unique_ptr) : Bool := u.ptr_ == none

/-- A store of `unique_ptr` objects indexed by object identity, used to embed
the aliasing-sensitive members (`swap`, move assignment). -/
abbrev Store := Nat → unique_ptr

/-- Write object `u` at index `i`. -/
def upd (s : Store) (i : Nat) (u : unique_ptr) : Store :=
  fun k => if k = i then u else s k

/-- Assign the `ptr_` field of the object at `i`. -/
def updPtr (s : Store) (i : Nat) (p : Option Nat) : Store :=
  upd s i ⟨p, (s i).deleter_⟩

/-- Assign the `deleter_` field of the object at `i`. -/
def updDel (s : Store) (i : Nat) (d : Nat) : Store :=
  upd s i ⟨(s i).ptr_, d⟩

/-- Embeds `void swap(unique_ptr& other) noexcept` (part_000 lines 95-99):
`std::swap(ptr_, other.ptr_); std::swap(deleter_, other.deleter_);`
with `*this` at index i and `other` at index j. Each `std::swap` is the
sequential `tmp = a; a = b; b = tmp;`, so aliasing (i = j) behaves exactly
as in the source. -/
def swapAt (s : Store) (i j : Nat) : Store :=
  let tmp := (s i).ptr_
  let s1 := updPtr s i ((s j).ptr_)
  let s2 := updPtr s1 j tmp
  let tmpd := (s2 i).deleter_
  let s3 := updDel s2 i ((s2 j).deleter_)
  updDel s3 j tmpd

/-- Embeds `unique_ptr& operator=(unique_ptr&& u) noexcept { swap(u); return *this; }`
(part_000 lines 89-92), `*this` at index i, `u` at index j. The body calls no
deleter, so the event list emitted during the assignment is empty. -/
def moveAssignAt (s : Store) (i j : Nat) : Store × List Event :=
  (swapAt s i j, [])

/-- Pointwise description of `swapAt`. -/
theorem swapAt_apply (s : Store) (i j k : Nat) :
    swapAt s i j k =
      if k = j then ⟨(s i).ptr_, (s i).deleter_⟩
      else if k = i then ⟨(s j).ptr_, (s j).deleter_⟩
      else s k := by
  by_cases hkj : k = j <;> by_cases hki : k = i <;>
    simp [swapAt, updPtr, updDel, upd, hkj, hki] <;>
    split_ifs <;> first | rfl | exact ⟨rfl, rfl⟩ | simp_all

/-- Concrete two-object store used for counterexamples and witnesses:
object 0 owns resource 1 via releaser 10, object 1 owns resource 2 via
releaser 20, all other indices hold empty handles. -/
def demoStore : Store := fun k =>
  if k = 0 then ⟨some 1, 10⟩ else if k = 1 then ⟨some 2, 20⟩ else ⟨none, 0⟩

/-- C1: constructing a handle owning resource r with releaser d and destroying
it invokes d on r exactly once; destroying any handle whose resource is the
empty sentinel invokes no releaser. -/
theorem uptr_destroy_releases_once (r d : Nat) :
    (unique_ptr.ofPtrDel (some r) d).dtor = [(d, r)] ∧
    (unique_ptr.ofPtrDel none d).dtor = [] := by
  constructor <;> rfl

/-- C5: on a handle owning r with releaser d, `release` returns r, leaves the
handle empty with its releaser intact, and destroying the emptied handle
performs no release; `release` is total (never fails). -/
theorem uptr_release_empties (r d : Nat) :
    (unique_ptr.ofPtrDel (some r) d).release =
      (some r, unique_ptr.ofPtrDel none d) ∧
    ((unique_ptr.ofPtrDel (some r) d).release.2).dtor = [] := by
  constructor <;> rfl

/-- C10: constructing from the empty sentinel (null raw pointer) yields
exactly the empty-constructed handle: `get` returns the sentinel and
destruction invokes no releaser. The constructor is total (never fails). -/
theorem uptr_null_construct_empty :
    unique_ptr.ofPtr none = unique_ptr.mkEmpty ∧
    (unique_ptr.ofPtr none).get = none ∧
    (unique_ptr.ofPtr none).dtor = [] := by
  refine ⟨rfl, rfl, rfl⟩

/-- C4: the boolean conversion in the draft returns `ptr_ == nullptr`, so it
is false on a non-empty handle (here one holding address 4096, the 0x1000 of
the spec scenario) and true on an empty one — the opposite of the documented
contract that non-empty is truthy. -/
theorem uptr_bool_conv_inverted :
    unique_ptr.opBool ⟨some 4096, default_deleter_tag⟩ = false ∧
    unique_ptr.opBool ⟨none, default_deleter_tag⟩ = true := by
  constructor <;> rfl

/-- C9: move-assigning a handle into itself (`*this` and `u` alias the same
object) leaves the whole store unchanged — the handle keeps its resource and
releaser — and the assignment invokes no releaser. This is forced by the
sequential `tmp = a; a = b; b = tmp;` shape of each member exchange. -/
theorem uptr_self_move_safe (s : Store) (i : Nat) :
    (moveAssignAt s i i).1 = s ∧ (moveAssignAt s i i).2 = [] := by
  refine ⟨funext fun k => ?_, rfl⟩
  show swapAt s i i k = s k
  rw [swapAt_apply]
  split_ifs with h1
  · rw [h1]
  · rfl

/-- C2 counterexample: with object 0 owning resource 1 and object 1 owning
resource 2, move-assigning object 1 into object 0 leaves the source (object 1)
holding resource 1 — the source does not become the empty sentinel, contrary
to the claim that it does for every prior state of the destination. -/
theorem uptr_move_assign_source_owning_cex :
    ((moveAssignAt demoStore 0 1).1 1).ptr_ = some 1 ∧
    ((moveAssignAt demoStore 0 1).1 1).ptr_ ≠ none := by decide

/-- C2 amended: after a move-construction the source always becomes the empty
sentinel and the new handle takes the prior resource and releaser; after a
move-assignment the destination takes the prior resource and releaser of the
source, while the source receives the prior resource and releaser of the
destination — so the source ends empty exactly when the destination was
empty. -/
theorem uptr_move_transfer_amended :
    (∀ u : unique_ptr,
      u.moveCtor.1 = ⟨u.ptr_, u.deleter_⟩ ∧ u.moveCtor.2.ptr_ = none) ∧
    (∀ (s : Store) (i j : Nat), i ≠ j →
      (moveAssignAt s i j).1 i = s j ∧
      (moveAssignAt s i j).1 j = ⟨(s i).ptr_, (s i).deleter_⟩ ∧
      (((moveAssignAt s i j).1 j).ptr_ = none ↔ (s i).ptr_ = none)) := by
  refine ⟨fun u => ⟨rfl, rfl⟩, fun s i j h => ?_⟩
  have h2 : (moveAssignAt s i j).1 j = ⟨(s i).ptr_, (s i).deleter_⟩ := by
    show swapAt s i j j = _
    rw [swapAt_apply]
    simp
  refine ⟨?_, h2, by rw [h2]⟩
  show swapAt s i j i = s j
  rw [swapAt_apply]
  simp [h]

/-- Witness for the amended C2 at the concrete store. -/
theorem uptr_move_transfer_amended_witness :
    (moveAssignAt demoStore 0 1).1 0 = demoStore 1 ∧
    (moveAssignAt demoStore 0 1).1 1 =
      ⟨(demoStore 0).ptr_, (demoStore 0).deleter_⟩ := by
  have h := uptr_move_transfer_amended.2 demoStore 0 1 (by decide)
  exact ⟨h.1, h.2.1⟩

/-- C3 counterexample: move-assigning object 1 into object 0 (which owns
resource 1 with releaser 10) emits no release event at all by the time the
assignment completes — in particular releaser 10 is not invoked on the old
resource 1, which instead survives inside the source object. -/
theorem uptr_move_assign_no_release_cex :
    (moveAssignAt demoStore 0 1).2 = [] ∧
    ((10, 1) : Event) ∉ (moveAssignAt demoStore 0 1).2 ∧
    ((moveAssignAt demoStore 0 1).1 1).ptr_ = some 1 := by decide

/-- C3 amended: a move-assignment into an owning destination releases nothing
during the assignment itself; the old resource and its releaser are swapped
into the source object, and destroying that source (the temporary, in the
swap-with-a-temporary composition) then releases the old resource exactly
once via the original releaser. -/
theorem uptr_move_assign_release_deferred (s : Store) (i j r d : Nat)
    (hij : i ≠ j) (hr : (s i).ptr_ = some r) (hd : (s i).deleter_ = d) :
    (moveAssignAt s i j).2 = [] ∧
    ((moveAssignAt s i j).1 j).ptr_ = some r ∧
    ((moveAssignAt s i j).1 j).dtor = [(d, r)] := by
  have h2 : (moveAssignAt s i j).1 j = ⟨(s i).ptr_, (s i).deleter_⟩ := by
    show swapAt s i j j = _
    rw [swapAt_apply]
    simp
  rw [h2, hr, hd]
  exact ⟨rfl, rfl, rfl⟩

/-- Witness for the amended C3 at the concrete store. -/
theorem uptr_move_assign_release_deferred_witness :
    (moveAssignAt demoStore 0 1).2 = [] ∧
    ((moveAssignAt demoStore 0 1).1 1).ptr_ = some 1 ∧
    ((moveAssignAt demoStore 0 1).1 1).dtor = [(10, 1)] :=
  uptr_move_assign_release_deferred demoStore 0 1 1 10
    (by decide) (by decide) (by decide)

/-- C6: swapping handle i (owning r1 via releaser d1) with handle j (owning
r2 via releaser d2) leaves i owning r2 and j owning r1, each releaser
travelling with its resource, so destroying i afterwards releases r2 via d2
and destroying j releases r1 via d1. -/
theorem uptr_swap_exchanges (s : Store) (i j r1 d1 r2 d2 : Nat)
    (hij : i ≠ j) (h1 : s i = ⟨some r1, d1⟩) (h2 : s j = ⟨some r2, d2⟩) :
    swapAt s i j i = ⟨some r2, d2⟩ ∧ swapAt s i j j = ⟨some r1, d1⟩ ∧
    (swapAt s i j i).dtor = [(d2, r2)] ∧
    (swapAt s i j j).dtor = [(d1, r1)] := by
  have hi : swapAt s i j i = ⟨some r2, d2⟩ := by
    rw [swapAt_apply]
    simp [hij, h2]
  have hj : swapAt s i j j = ⟨some r1, d1⟩ := by
    rw [swapAt_apply]
    simp [h1]
  rw [hi, hj]
  exact ⟨rfl, rfl, rfl, rfl⟩

/-- Witness for C6 at the concrete store. -/
theorem uptr_swap_exchanges_witness :
    swapAt demoStore 0 1 0 = ⟨some 2, 20⟩ ∧
    swapAt demoStore 0 1 1 = ⟨some 1, 10⟩ ∧
    (swapAt demoStore 0 1 0).dtor = [(20, 2)] ∧
    (swapAt demoStore 0 1 1).dtor = [(10, 1)] :=
  uptr_swap_exchanges demoStore 0 1 1 10 2 20
    (by decide) (by decide) (by decide)

/-- Chain of N sequential move-constructions starting from handle h: each step
move-constructs a new handle from the previous one. Returns the list
[H1, H2, ..., HN, H(N+1)] of all n+1 handles in their final (possibly
moved-from) states, the last being the handle the resource ended in. -/
def chainMoves : Nat → unique_ptr → List unique_ptr
  | 0, h => [h]
  | n + 1, h => (unique_ptr.moveCtor h).2 :: chainMoves n (unique_ptr.moveCtor h).1

/-- Closed form of a chain of moves out of an owning handle: every moved-from
intermediate handle is empty and the final handle owns the resource. -/
theorem chainMoves_eq (n r d : Nat) :
    chainMoves n ⟨some r, d⟩ =
      List.replicate n ⟨none, d⟩ ++ [⟨some r, d⟩] := by
  induction n with
  | zero => rfl
  | succ n ih =>
    simp [chainMoves, unique_ptr.moveCtor, List.replicate, ih]

/-- C7: after chaining any number of sequential moves out of a handle owning
resource r with releaser d, all handles before the last are empty (each of
their destructions emits no release event), the last handle owns r with d,
and its destruction emits the single release (d, r) — exactly one release,
at the final handle, not earlier. -/
theorem uptr_chain_moves_single_release (n r d : Nat) :
    (chainMoves n ⟨some r, d⟩).dropLast = List.replicate n ⟨none, d⟩ ∧
    unique_ptr.dtor ⟨none, d⟩ = [] ∧
    (chainMoves n ⟨some r, d⟩).getLastD ⟨none, d⟩ = ⟨some r, d⟩ ∧
    unique_ptr.dtor ⟨some r, d⟩ = [(d, r)] := by
  refine ⟨?_, rfl, ?_, rfl⟩
  · rw [chainMoves_eq]
    simp
  · rw [chainMoves_eq]
    simp

/-- Operations of the handle, acting on a store of objects identified by
index. Copy construction and copy assignment are deliberately absent: the
source deletes both (part_000 lines 102-103), so no copying operation exists
to model. -/
inductive Op where
  | constructOwn (i : Nat) (p : Option Nat) (d : Nat)
  | moveConstruct (i j : Nat)
  | moveAssign (i j : Nat)
  | swapOp (i j : Nat)
  | releaseOp (i : Nat)
  | destroy (i : Nat)

/-- System state: the set of live objects and the store of their fields. -/
structure Sys where
  live : Finset Nat
  store : Store

/-- Effect of each operation on the system state, assembled from the member
embeddings above. `destroy` removes the object from the live set (its
destructor events are given by `unique_ptr.dtor`, which touches no other
object). -/
def applyOp : Op → Sys → Sys
  | .constructOwn i p d, ⟨live, s⟩ =>
      ⟨insert i live, upd s i (unique_ptr.ofPtrDel p d)⟩
  | .moveConstruct i j, ⟨live, s⟩ =>
      ⟨insert i live,
        upd (upd s j (unique_ptr.moveCtor (s j)).2) i (unique_ptr.moveCtor (s j)).1⟩
  | .moveAssign i j, ⟨live, s⟩ => ⟨live, (moveAssignAt s i j).1⟩
  | .swapOp i j, ⟨live, s⟩ => ⟨live, swapAt s i j⟩
  | .releaseOp i, ⟨live, s⟩ => ⟨live, upd s i ((s i).release).2⟩
  | .destroy i, ⟨live, s⟩ => ⟨live.erase i, s⟩

/-- Side conditions for each operation: constructions happen at a fresh
object index; an owning construction hands the handle a freshly obtained
resource (one no live handle owns, per the lifecycle of the data model);
all other operations act on live objects. -/
def Pre : Op → Sys → Prop
  | .constructOwn i p _, ⟨live, s⟩ =>
      i ∉ live ∧ ∀ j ∈ live, ∀ r : Nat, p = some r → (s j).ptr_ ≠ some r
  | .moveConstruct i j, ⟨live, _⟩ => i ∉ live ∧ j ∈ live
  | .moveAssign i j, ⟨live, _⟩ => i ∈ live ∧ j ∈ live
  | .swapOp i j, ⟨live, _⟩ => i ∈ live ∧ j ∈ live
  | .releaseOp i, ⟨live, _⟩ => i ∈ live
  | .destroy i, ⟨live, _⟩ => i ∈ live

/-- Unique-ownership invariant: no two distinct live handles hold the same
non-empty resource value. -/
def OneOwnerInv (st : Sys) : Prop :=
  ∀ i ∈ st.live, ∀ j ∈ st.live, ∀ r : Nat,
    (st.store i).ptr_ = some r → (st.store j).ptr_ = some r → i = j

/-- Unfolding lemma for `upd`. -/
theorem upd_apply (s : Store) (i : Nat) (u : unique_ptr) (k : Nat) :
    upd s i u k = if k = i then u else s k := rfl

/-- The store after a swap is the original store composed with the
transposition of the two indices. -/
theorem swapAt_eq_perm (s : Store) (i j k : Nat) :
    swapAt s i j k = s (Equiv.swap i j k) := by
  rw [swapAt_apply, Equiv.swap_apply_def]
  by_cases hki : k = i
  · subst hki
    by_cases hkj : k = j
    · subst hkj
      simp
    · simp [hkj, Ne.symm hkj]
  · by_cases hkj : k = j
    · subst hkj
      simp [hki, Ne.symm hki]
    · simp [hki, hkj]

/-- A transposition of two live indices maps live indices to live indices. -/
theorem swap_mem_live (live : Finset Nat) (i j a : Nat)
    (hi : i ∈ live) (hj : j ∈ live) (ha : a ∈ live) :
    Equiv.swap i j a ∈ live := by
  rw [Equiv.swap_apply_def]
  split_ifs <;> assumption

/-- C8: every operation of the handle — owning construction at a fresh index
with a freshly obtained resource, move construction at a fresh index, move
assignment, swap, release, destruction — preserves the invariant that at most
one live handle holds a given non-empty resource value; no operation
duplicates ownership, and no copy operation exists among the operations
(both copy members are deleted in the source, part_000 lines 102-103). -/
theorem uptr_at_most_one_owner (op : Op) (st : Sys)
    (hpre : Pre op st) (hinv : OneOwnerInv st) :
    OneOwnerInv (applyOp op st) := by
  obtain ⟨live, s⟩ := st
  cases op with
  | constructOwn i p d =>
    obtain ⟨hfresh, hnew⟩ := hpre
    intro a ha b hb r hA hB
    simp only [applyOp, Finset.mem_insert] at ha hb
    simp only [applyOp, upd_apply, unique_ptr.ofPtrDel] at hA hB
    by_cases hai : a = i <;> by_cases hbi : b = i
    · rw [hai, hbi]
    · rw [if_pos hai] at hA
      rw [if_neg hbi] at hB
      rcases hb with hb | hb
      · exact absurd hb hbi
      · exact absurd hB (hnew b hb r hA)
    · rw [if_neg hai] at hA
      rw [if_pos hbi] at hB
      rcases ha with ha | ha
      · exact absurd ha hai
      · exact absurd hA (hnew a ha r hB)
    · rw [if_neg hai] at hA
      rw [if_neg hbi] at hB
      rcases ha with ha | ha
      · exact absurd ha hai
      rcases hb with hb | hb
      · exact absurd hb hbi
      exact hinv a ha b hb r hA hB
  | moveConstruct i j =>
    obtain ⟨hfresh, hj⟩ := hpre
    intro a ha b hb r hA hB
    simp only [applyOp, Finset.mem_insert] at ha hb
    simp only [applyOp, upd_apply, unique_ptr.moveCtor] at hA hB
    by_cases hai : a = i <;> by_cases hbi : b = i
    · rw [hai, hbi]
    · rw [if_pos hai] at hA
      rw [if_neg hbi] at hB
      rcases hb with hb | hb
      · exact absurd hb hbi
      by_cases hbj : b = j
      · rw [if_pos hbj] at hB
        simp at hB
      · rw [if_neg hbj] at hB
        exact absurd (hinv j hj b hb r hA hB) (Ne.symm hbj)
    · rw [if_neg hai] at hA
      rw [if_pos hbi] at hB
      rcases ha with ha | ha
      · exact absurd ha hai
      by_cases haj : a = j
      · rw [if_pos haj] at hA
        simp at hA
      · rw [if_neg haj] at hA
        exact absurd (hinv a ha j hj r hA hB) haj
    · rw [if_neg hai] at hA
      rw [if_neg hbi] at hB
      rcases ha with ha | ha
      · exact absurd ha hai
      rcases hb with hb | hb
      · exact absurd hb hbi
      by_cases haj : a = j
      · rw [if_pos haj] at hA
        simp at hA
      by_cases hbj : b = j
      · rw [if_pos hbj] at hB
        simp at hB
      rw [if_neg haj] at hA
      rw [if_neg hbj] at hB
      exact hinv a ha b hb r hA hB
  | moveAssign i j =>
    obtain ⟨hi, hj⟩ := hpre
    intro a ha b hb r hA hB
    simp only [applyOp, moveAssignAt] at ha hb hA hB
    rw [swapAt_eq_perm] at hA hB
    exact (Equiv.swap i j).injective
      (hinv _ (swap_mem_live live i j a hi hj ha) _
        (swap_mem_live live i j b hi hj hb) r hA hB)
  | swapOp i j =>
    obtain ⟨hi, hj⟩ := hpre
    intro a ha b hb r hA hB
    simp only [applyOp] at ha hb hA hB
    rw [swapAt_eq_perm] at hA hB
    exact (Equiv.swap i j).injective
      (hinv _ (swap_mem_live live i j a hi hj ha) _
        (swap_mem_live live i j b hi hj hb) r hA hB)
  | releaseOp i =>
    intro a ha b hb r hA hB
    simp only [applyOp, upd_apply, unique_ptr.release] at ha hb hA hB
    by_cases hai : a = i
    · rw [if_pos hai] at hA
      simp at hA
    · rw [if_neg hai] at hA
      by_cases hbi : b = i
      · rw [if_pos hbi] at hB
        simp at hB
      · rw [if_neg hbi] at hB
        exact hinv a ha b hb r hA hB
  | destroy i =>
    intro a ha b hb r hA hB
    simp only [applyOp] at ha hb hA hB
    exact hinv a (Finset.mem_of_mem_erase ha) b (Finset.mem_of_mem_erase hb)
      r hA hB

/-- Witness for C8: swapping the two live objects of the concrete state
preserves the unique-ownership invariant. -/
theorem uptr_at_most_one_owner_witness :
    OneOwnerInv (applyOp (Op.swapOp 0 1) ⟨{0, 1}, demoStore⟩) :=
  uptr_at_most_one_owner (Op.swapOp 0 1) ⟨{0, 1}, demoStore⟩
    ⟨by decide, by decide⟩
    (by
      intro a ha b hb r hA hB
      fin_cases ha <;> fin_cases hb <;>
        first
        | rfl
        | (simp [demoStore] at hA hB; omega))
